import Mathlib

/-!
Verification of the `systemdrs` crate: a shallow embedding of
`src/socket.rs`, `src/notify.rs` and `src/properties.rs`, together with
theorems settling the behavioural claims about the crate.

Modelling conventions:
* Rust `String`/`&str` values are Lean `String`s; the character-level
  operations the crate uses (`split`, `split_once`, `trim`, `lines`)
  are defined structurally over `String.data` so that they evaluate in
  the kernel and mirror the Rust standard library's behaviour.
* Machine integers (`u32`, `usize`, `i32`) are `Nat`/`Int` with explicit
  bounds where parsing can overflow.
* The process environment is a function `String → Option EnvValue`,
  where an `EnvValue` is either valid unicode text or a non-unicode
  OS string (matching `std::env::VarError`'s two failure cases).
* The current process id (`std::process::id()`) is an explicit `selfPid`
  parameter.
* `io::Error` values are opaque payloads modelled by `IoCause`.
* A Rust `panic!` is modelled by `Option`: `none` is a panic.
-/

namespace Systemdrs

/-- Model of an `std::io::Error` payload (opaque to the crate's logic). -/
structure IoCause where
  msg : String
deriving DecidableEq

/-- Model of the value of one environment variable, as seen through
`std::env::var`: either valid unicode text or a non-unicode OS string. -/
inductive EnvValue
  | text (s : String)
  | nonUnicode
deriving DecidableEq

/-- An environment: a partial map from variable names to values. -/
def Env : Type := String → Option EnvValue

/-- Errors from `src/socket.rs` (`enum SocketError`). -/
inductive SocketError
  | IOError (e : IoCause)
  | WrongPID (actual : Nat) (raw : String)
  | NotSocket (fd : Nat)
  | MissingVar (name : String)
  | InvalidVar (name : String) (raw : String)
deriving DecidableEq

/-- `var` from `src/socket.rs`: read an environment variable, collapsing
both `VarError::NotPresent` and `VarError::NotUnicode` into
`SocketError::MissingVar`. -/
def var (env : Env) (name : String) : Except SocketError String :=
  match env name with
  | some (.text value) => .ok value
  | some .nonUnicode => .error (.MissingVar name)
  | none => .error (.MissingVar name)

/-- Rust's `str::split(c)` on a list of characters: splits at every
occurrence of `c`; always returns at least one (possibly empty) piece. -/
def splitChar (c : Char) : List Char → List (List Char)
  | [] => [[]]
  | x :: xs =>
    if x = c then [] :: splitChar c xs
    else
      match splitChar c xs with
      | [] => [[x]]
      | y :: ys => (x :: y) :: ys

/-- Rust's `str::split(c)` collected into a `Vec<&str>`. -/
def rustSplit (s : String) (c : Char) : List String :=
  (splitChar c s.data).map (fun l => ⟨l⟩)

/-- One decimal digit of a numeric character. -/
def digitVal (c : Char) : Nat := c.toNat - 48

/-- Rust's `str::parse` for an unsigned integer type whose maximum value
is `bound`: an optional leading `+`, then one or more ASCII digits, and
the value must not overflow the type. -/
def parseNatBounded (bound : Nat) (s : String) : Option Nat :=
  let cs := match s.data with
    | '+' :: rest => rest
    | cs => cs
  if cs = [] then none
  else if cs.all (fun c => c.isDigit) then
    let v := cs.foldl (fun acc c => acc * 10 + digitVal c) 0
    if v ≤ bound then some v else none
  else none

/-- `str::parse::<u32>()`. -/
def parseU32 (s : String) : Option Nat := parseNatBounded (2 ^ 32 - 1) s

/-- `str::parse::<usize>()` (64-bit target). -/
def parseUsize (s : String) : Option Nat := parseNatBounded (2 ^ 64 - 1) s

/-- `struct SystemDSocket` from `src/socket.rs`: an optional name and a
raw file descriptor (`RawFd`; descriptors handed off by the manager are
non-negative, so the descriptor is a `Nat`). -/
structure SystemDSocket where
  name : Option String
  fd : Nat
deriving DecidableEq

/-- The descriptor list `(SD_FD_OFFSET..).take(n)` with `SD_FD_OFFSET = 3`. -/
def fdRange (n : Nat) : List Nat := (List.range n).map (fun i => 3 + i)

/-- `construct_sockets` from `src/socket.rs`.  `selfPid` models
`std::process::id()`.  The `tracing::warn!` call on a name-count mismatch
is a side effect with no influence on the returned value and is omitted. -/
def construct_sockets (selfPid : Nat) (listen_fds : String)
    (listen_fd_names : Option String) (listen_pid : String) :
    Except SocketError (List SystemDSocket) :=
  match parseU32 listen_pid with
  | none => .error (.InvalidVar "LISTEN_PID" listen_pid)
  | some pid =>
    if selfPid ≠ pid then .error (.WrongPID selfPid listen_pid)
    else
      match parseUsize listen_fds with
      | none => .error (.InvalidVar "LISTEN_FDS" listen_fds)
      | some n =>
        match listen_fd_names with
        | some names_value =>
          let names := rustSplit names_value ':'
          if names.length = n then
            .ok (((fdRange n).zip names).map
              (fun p => SystemDSocket.mk (some p.2) p.1))
          else
            .ok ((fdRange n).map (fun fd => SystemDSocket.mk none fd))
        | none => .ok ((fdRange n).map (fun fd => SystemDSocket.mk none fd))

/-- `sockets` from `src/socket.rs`: read the three variables and call
`construct_sockets`.  The `?` on `listen_fds` is evaluated before the `?`
on `listen_pid`, matching the Rust argument evaluation order. -/
def sockets (selfPid : Nat) (env : Env) :
    Except SocketError (List SystemDSocket) :=
  match var env "LISTEN_FDS" with
  | .error e => .error e
  | .ok listen_fds =>
    match var env "LISTEN_PID" with
    | .error e => .error e
    | .ok listen_pid =>
      construct_sockets selfPid listen_fds
        (var env "LISTEN_FDNAMES").toOption listen_pid

/-- Little-endian base-10 digits of `n`, computed with explicit fuel so the
definition is structural (`fuel = n` always suffices). -/
def natDigitsAux : Nat → Nat → List Nat
  | 0, _ => []
  | fuel + 1, n => if n = 0 then [] else n % 10 :: natDigitsAux fuel (n / 10)

/-- Little-endian base-10 digits of `n` (empty for `0`). -/
def natDigits (n : Nat) : List Nat := natDigitsAux n n

/-- Value of a little-endian base-10 digit list. -/
def ofDigits10 : List Nat → Nat
  | [] => 0
  | d :: ds => d + 10 * ofDigits10 ds

/-- The decimal rendering of a natural number, as Rust's `Display` for
unsigned integers produces it: most-significant digit first, no leading
zeros, and `"0"` for zero. -/
def natDecimalChars (n : Nat) : List Char :=
  if n = 0 then ['0']
  else (natDigits n).reverse.map (fun d => Char.ofNat (48 + d))

/-- The decimal rendering of a signed integer, as Rust's `Display` for
`i32` produces it: a leading `-` for negative values, then the decimal
digits of the absolute value. -/
def intDecimalChars (e : Int) : List Char :=
  if e < 0 then '-' :: natDecimalChars (-e).toNat else natDecimalChars e.toNat

/-- The decimal rendering of an `i32`, as a string. -/
def intDecimal (e : Int) : String := ⟨intDecimalChars e⟩

/-- Errors from `src/notify.rs` (`enum NotifyError`). -/
inductive NotifyError
  | IOError (e : IoCause)
  | MissingVar (name : String)
  | InvalidVar (name : String) (raw : String)
deriving DecidableEq

/-- `impl From<SocketError> for NotifyError` from `src/notify.rs`.  The
catch-all arm of the Rust `match` executes `panic!`, modelled by `none`. -/
def notifyErrorFromSocketError : SocketError → Option NotifyError
  | .IOError err => some (.IOError err)
  | .MissingVar v => some (.MissingVar v)
  | .InvalidVar v value => some (.InvalidVar v value)
  | _ => none

/-- `struct CustomVariable` from `src/notify.rs`. -/
structure CustomVariable where
  key : String
  value : String
deriving DecidableEq

/-- `enum Notification` from `src/notify.rs`. -/
inductive Notification
  | Ready
  | Reloading
  | Stopping
  | Status (status : String)
  | Errno (errno : Int)
  | WatchdogOk
  | WatchdogTrigger
  | Custom (pair : CustomVariable)
deriving DecidableEq

/-- Whether a `Notification` is the `Custom` escape-hatch variant. -/
def Notification.isCustom : Notification → Bool
  | .Custom _ => true
  | _ => false

/-- The characters written by `impl fmt::Display for Notification`
(one wire line, without the terminating line break). -/
def Notification.lineChars : Notification → List Char
  | .Ready => "READY=1".data
  | .Reloading => "RELOADING=1".data
  | .Stopping => "STOPPING=1".data
  | .Status status => "STATUS=".data ++ status.data
  | .Errno errno => "ERRNO=".data ++ intDecimalChars errno
  | .WatchdogOk => "WATCHDOG=1".data
  | .WatchdogTrigger => "WATCHDOG=trigger".data
  | .Custom pair =>
      "X-".data ++ pair.key.data ++ "=".data ++ pair.value.data

/-- `impl fmt::Display for Notification`, as a string. -/
def Notification.render (n : Notification) : String := ⟨n.lineChars⟩

/-- `struct Message` from `src/notify.rs`: an ordered sequence of
notifications. -/
structure Message where
  vars : List Notification
deriving DecidableEq

/-- `impl fmt::Display for Message`: the loop of `writeln!` calls,
appending each notification's line and a line break in order. -/
def Message.render (m : Message) : String :=
  ⟨m.vars.foldl (fun acc v => acc ++ v.lineChars ++ ['\n']) []⟩

/-- Model of the `SystemDNotify` client: the resolved `NOTIFY_SOCKET`
address (the shared datagram handle has no decodable state). -/
structure SystemDNotify where
  address : String
deriving DecidableEq

/-- `SystemDNotify::from_environment` from `src/notify.rs`.  `unbound`
models the outcome of `UnixDatagram::unbound()`.  The outer `Option` is
the panic model: `none` would mean the `From<SocketError>` conversion
panicked. -/
def from_environment (env : Env) (unbound : Except IoCause Unit) :
    Option (Except NotifyError SystemDNotify) :=
  match var env "NOTIFY_SOCKET" with
  | .error e => (notifyErrorFromSocketError e).map .error
  | .ok address =>
    match unbound with
    | .error err => some (.error (.IOError err))
    | .ok _ => some (.ok ⟨address⟩)

/-- The Unicode `White_Space` property, as used by Rust's
`char::is_whitespace`. -/
def rustIsWhitespace (c : Char) : Bool :=
  c.toNat ∈ ([0x9, 0xA, 0xB, 0xC, 0xD, 0x20, 0x85, 0xA0, 0x1680,
    0x2000, 0x2001, 0x2002, 0x2003, 0x2004, 0x2005, 0x2006, 0x2007,
    0x2008, 0x2009, 0x200A, 0x2028, 0x2029, 0x202F, 0x205F, 0x3000] : List Nat)

/-- Rust's `str::trim`: drop whitespace from both ends. -/
def trimChars (l : List Char) : List Char :=
  ((l.dropWhile rustIsWhitespace).reverse.dropWhile rustIsWhitespace).reverse

/-- Rust's `str::trim`, on strings. -/
def rustTrim (s : String) : String := ⟨trimChars s.data⟩

/-- Rust's `str::split_once(c)` on a list of characters: split at the
first occurrence of `c`, or `none` when `c` does not occur. -/
def splitOnceChar (c : Char) : List Char → Option (List Char × List Char)
  | [] => none
  | x :: xs =>
    if x = c then some ([], xs)
    else (splitOnceChar c xs).map (fun p => (x :: p.1, p.2))

/-- Rust's `str::split_once(c)`, on strings. -/
def splitOnce (s : String) (c : Char) : Option (String × String) :=
  (splitOnceChar c s.data).map (fun p => (⟨p.1⟩, ⟨p.2⟩))

/-- One step of Rust's `str::lines` after splitting on `'\n'`: a segment
that was terminated by `'\n'` loses one trailing `'\r'`. -/
def stripTrailingCR (s : String) : String :=
  if s.data.getLast? = some '\r' then ⟨s.data.dropLast⟩ else s

/-- Rust's `str::lines` applied to the segments produced by splitting on
`'\n'`: every segment except the last was `'\n'`-terminated (so loses a
trailing `'\r'`), and a final empty segment (a trailing line break, or an
empty input) yields no line. -/
def rustLinesAux : List String → List String
  | [] => []
  | [last] => if last = "" then [] else [last]
  | l :: rest => stripTrailingCR l :: rustLinesAux rest

/-- Rust's `str::lines`, collected into a list. -/
def rustLines (s : String) : List String := rustLinesAux (rustSplit s '\n')

/-- `enum ActiveState` from `src/properties.rs`. -/
inductive ActiveState
  | Active
  | Reloading
  | Inactive
  | Failed
  | Activating
  | Deactivating
deriving DecidableEq

/-- `struct StateParseError` from `src/properties.rs`. -/
structure StateParseError where
  raw : String
deriving DecidableEq

/-- `impl FromStr for ActiveState` from `src/properties.rs`. -/
def ActiveState.fromStr (s : String) : Except StateParseError ActiveState :=
  match s with
  | "active" => .ok .Active
  | "reloading" => .ok .Reloading
  | "inactive" => .ok .Inactive
  | "failed" => .ok .Failed
  | "activating" => .ok .Activating
  | "deactivating" => .ok .Deactivating
  | _ => .error ⟨s⟩

/-- `enum PropertyParseError` from `src/properties.rs`. -/
inductive PropertyParseError
  | State (e : StateParseError)
  | MissingDelimeter (line : String)
  | MissingProperty (name : String)
  | CommandError (e : IoCause)
deriving DecidableEq

/-- The property map built by `SystemDProperties::from_str`: the
`HashMap<String, String>` is modelled as a function from keys to
optional values (`insert` overwrites). -/
def PropMap : Type := String → Option String

/-- `HashMap::insert`: later writes to the same key win. -/
def PropMap.insert (m : PropMap) (key value : String) : PropMap :=
  fun k => if k = key then some value else m k

/-- The loop of `SystemDProperties::from_str`: for each line, split the
trimmed line at the first `=` (failing with `MissingDelimeter` on the raw
line otherwise) and insert the key/value pair into the map. -/
def parseLines : List String → PropMap →
    Except PropertyParseError PropMap
  | [], m => .ok m
  | line :: rest, m =>
    match splitOnce (rustTrim line) '=' with
    | none => .error (.MissingDelimeter line)
    | some (key, value) => parseLines rest (m.insert key value)

/-- `struct SystemDProperties` from `src/properties.rs`. -/
structure SystemDProperties where
  properties : PropMap
  active : ActiveState

/-- `SystemDProperties::property`. -/
def SystemDProperties.property (p : SystemDProperties) (name : String) :
    Option String :=
  p.properties name

/-- `SystemDProperties::state`. -/
def SystemDProperties.state (p : SystemDProperties) : ActiveState := p.active

/-- `impl FromStr for SystemDProperties` from `src/properties.rs`: parse
every line into the map, then require an `ActiveState` key whose value
parses as an `ActiveState`. -/
def SystemDProperties.fromStr (s : String) :
    Except PropertyParseError SystemDProperties :=
  match parseLines (rustLines s) (fun _ => none) with
  | .error e => .error e
  | .ok m =>
    match m "ActiveState" with
    | none => .error (.MissingProperty "ActiveState")
    | some v =>
      match ActiveState.fromStr v with
      | .error e => .error (.State e)
      | .ok active => .ok ⟨m, active⟩

/-- The value the property map ends up holding for key `k` after the
parse loop: the value of the last line whose key is `k`. -/
def lookupLines : List String → String → Option String
  | [], _ => none
  | line :: rest, k =>
    match lookupLines rest k with
    | some v => some v
    | none =>
      match splitOnce (rustTrim line) '=' with
      | some (key, value) => if k = key then some value else none
      | none => none

/-- Value of a decimal character rendering, most-significant digit first
(proof-side inverse of `natDecimalChars`). -/
def decodeDecimal (l : List Char) : Nat :=
  ofDigits10 (l.reverse.map (fun c => c.toNat - 48))

/-- Proof-side inverse of `intDecimalChars`: an optional leading `-`
followed by a decimal numeral. -/
def decInt (l : List Char) : Option Int :=
  if l.head? = some '-' then some (-(decodeDecimal (l.drop 1) : Int))
  else some ((decodeDecimal l : Int))

/-- Modelled from the spec: the conceptual decoder "keyed on the
recognized KEY=VALUE forms" that the round-trip property of §8 speaks of;
the crate itself only implements the forward encoding. -/
def specDecodeLine (l : List Char) : Option Notification :=
  if l = "READY=1".data then some .Ready
  else if l = "RELOADING=1".data then some .Reloading
  else if l = "STOPPING=1".data then some .Stopping
  else if l = "WATCHDOG=1".data then some .WatchdogOk
  else if l = "WATCHDOG=trigger".data then some .WatchdogTrigger
  else if l.take 7 = "STATUS=".data then some (.Status ⟨l.drop 7⟩)
  else if l.take 6 = "ERRNO=".data then (decInt (l.drop 6)).map .Errno
  else none

/-! ### Helper lemmas about the socket-activation decoder -/

theorem construct_sockets_unnamed_of_mismatch
    (selfPid n : Nat) (fds names pid : String)
    (hp : parseU32 pid = some selfPid)
    (hn : parseUsize fds = some n)
    (hlen : (rustSplit names ':').length ≠ n) :
    construct_sockets selfPid fds (some names) pid =
      .ok ((fdRange n).map (fun fd => SystemDSocket.mk none fd)) := by
  simp [construct_sockets, hp, hn, hlen]

theorem zip_fdRange_named (names : List String) :
    ∀ off : Nat,
      (((List.range names.length).map (fun i => off + i)).zip names).map
        (fun p => SystemDSocket.mk (some p.2) p.1) =
      (List.range names.length).map
        (fun i => SystemDSocket.mk names[i]? (off + i)) := by
  induction names with
  | nil => intro off; simp
  | cons a t ih =>
    intro off
    have h₁ : (fun i => off + Nat.succ i) = (fun i => (off + 1) + i) := by
      funext i; omega
    have h₂ : (fun i => SystemDSocket.mk t[i]? ((off + 1) + i)) =
        (fun i => SystemDSocket.mk t[i]? (off + (i + 1))) := by
      funext i
      congr 1
      omega
    calc (((List.range (a :: t).length).map (fun i => off + i)).zip (a :: t)).map
          (fun p => SystemDSocket.mk (some p.2) p.1)
        = SystemDSocket.mk (some a) (off + 0) ::
            (((List.range t.length).map (fun i => (off + 1) + i)).zip t).map
              (fun p => SystemDSocket.mk (some p.2) p.1) := by
          simp only [List.length_cons, List.range_succ_eq_map, List.map_cons,
            List.map_map, List.zip_cons_cons, Function.comp_def, h₁]
      _ = SystemDSocket.mk (some a) (off + 0) ::
            (List.range t.length).map (fun i => SystemDSocket.mk t[i]? ((off + 1) + i)) := by
          rw [ih (off + 1)]
      _ = (List.range (a :: t).length).map
            (fun i => SystemDSocket.mk (a :: t)[i]? (off + i)) := by
          simp only [List.length_cons, List.range_succ_eq_map, List.map_cons,
            List.map_map, Function.comp_def, List.getElem?_cons_zero,
            List.getElem?_cons_succ, Nat.add_zero, Nat.succ_eq_add_one]
          rw [h₂]

/-! ### C1 -/

/-- C1: with `LISTEN_PID` parsing to the current PID, `LISTEN_FDS` parsing
to `n`, and `LISTEN_FDNAMES` holding exactly `n` colon-separated tokens,
`construct_sockets` succeeds with exactly `n` sockets whose descriptors are
`3, 4, ..., 3+n-1` in ascending order, the `i`-th carrying the `i`-th name
token; in particular `LISTEN_FDS="3"`, `LISTEN_FDNAMES="alice:bob:charlie"`
yields names `alice`, `bob`, `charlie` on descriptors `3`, `4`, `5`. -/
theorem construct_sockets_named_spec :
    (∀ (selfPid n : Nat) (fds names pid : String),
      parseU32 pid = some selfPid →
      parseUsize fds = some n →
      (rustSplit names ':').length = n →
      ∃ socks, construct_sockets selfPid fds (some names) pid = .ok socks ∧
        socks.length = n ∧
        ∀ i, i < n →
          socks[i]? = some (SystemDSocket.mk (rustSplit names ':')[i]? (3 + i))) ∧
    construct_sockets 77 "3" (some "alice:bob:charlie") "77" =
      .ok [⟨some "alice", 3⟩, ⟨some "bob", 4⟩, ⟨some "charlie", 5⟩] := by
  constructor
  · intro selfPid n fds names pid hp hn hlen
    have hz := zip_fdRange_named (rustSplit names ':') 3
    rw [hlen] at hz
    refine ⟨((fdRange n).zip (rustSplit names ':')).map
      (fun p => SystemDSocket.mk (some p.2) p.1), ?_, ?_, ?_⟩
    · simp [construct_sockets, hp, hn, hlen]
    · simp [fdRange, hlen]
    · intro i hi
      rw [show fdRange n = (List.range n).map (fun i => 3 + i) from rfl, hz]
      rw [List.getElem?_map, List.getElem?_range hi]
      rfl
  · rfl

/-- Witness for C1 at the spec's own example. -/
theorem construct_sockets_named_spec_witness :
    ∃ socks, construct_sockets 77 "3" (some "alice:bob:charlie") "77" = .ok socks ∧
      socks.length = 3 ∧
      ∀ i, i < 3 →
        socks[i]? = some (SystemDSocket.mk (rustSplit "alice:bob:charlie" ':')[i]? (3 + i)) :=
  construct_sockets_named_spec.1 77 3 "3" "alice:bob:charlie" "77" rfl rfl rfl

/-! ### C2 -/

/-- C2: whenever `LISTEN_PID` is present and parses to a PID different from
the current process's, decoding fails with `WrongPID` carrying the actual
PID and the raw `LISTEN_PID` string, for every value of `LISTEN_FDS`
(present but arbitrarily invalid) and any state of `LISTEN_FDNAMES`. -/
theorem sockets_wrong_pid_spec
    (selfPid p : Nat) (env : Env) (pidStr fdsStr : String)
    (hpid : env "LISTEN_PID" = some (.text pidStr))
    (hfds : env "LISTEN_FDS" = some (.text fdsStr))
    (hparse : parseU32 pidStr = some p)
    (hne : p ≠ selfPid) :
    sockets selfPid env = .error (.WrongPID selfPid pidStr) := by
  simp [sockets, var, hpid, hfds, construct_sockets, hparse, Ne.symm hne]

/-- Witness for C2: an unparseable `LISTEN_FDS` does not mask `WrongPID`. -/
theorem sockets_wrong_pid_spec_witness :
    sockets 1 (fun name =>
      if name = "LISTEN_PID" then some (.text "999")
      else if name = "LISTEN_FDS" then some (.text "zap") else none) =
      .error (.WrongPID 1 "999") :=
  sockets_wrong_pid_spec 1 999 _ "999" "zap" rfl rfl rfl (by decide)

/-! ### C3 -/

/-- C3: when the colon-split token count of a non-empty `LISTEN_FDNAMES`
differs from the declared count `n`, decoding still succeeds with exactly
`n` sockets, every one of them unnamed. -/
theorem construct_sockets_mismatch_unnamed_spec
    (selfPid n : Nat) (fds names pid : String)
    (hp : parseU32 pid = some selfPid)
    (hn : parseUsize fds = some n)
    (_hne : names ≠ "")
    (hlen : (rustSplit names ':').length ≠ n) :
    ∃ socks, construct_sockets selfPid fds (some names) pid = .ok socks ∧
      socks.length = n ∧ ∀ s ∈ socks, s.name = none := by
  refine ⟨_, construct_sockets_unnamed_of_mismatch selfPid n fds names pid hp hn hlen,
    ?_, ?_⟩
  · simp [fdRange]
  · intro s hs
    simp only [List.mem_map] at hs
    obtain ⟨fd, _, rfl⟩ := hs
    rfl

/-- Witness for C3: two tokens against a declared count of three. -/
theorem construct_sockets_mismatch_unnamed_spec_witness :
    ∃ socks, construct_sockets 8 "3" (some "alice:bob") "8" = .ok socks ∧
      socks.length = 3 ∧ ∀ s ∈ socks, s.name = none :=
  construct_sockets_mismatch_unnamed_spec 8 3 "3" "alice:bob" "8" rfl rfl
    (by decide) (by decide)

/-! ### C4 -/

/-- Counterexample to C4: with `LISTEN_FDS="1"` and an empty (but present)
`LISTEN_FDNAMES`, splitting the empty string on `:` yields the single token
`""`, whose count equals `n = 1`, so the lone socket is named `some ""`
rather than unnamed. -/
theorem construct_sockets_empty_names_counterexample :
    construct_sockets 1 "1" (some "") "1" = .ok [SystemDSocket.mk (some "") 3] ∧
      (SystemDSocket.mk (some "") 3).name ≠ none :=
  ⟨rfl, by decide⟩

/-- C4 (amended): for every count `n ≠ 1`, an empty but present
`LISTEN_FDNAMES` yields `n` unnamed sockets; for `n = 1` the empty names
string is treated as the single token `""` and is attached as the socket's
name (see the counterexample). -/
theorem construct_sockets_empty_names_spec
    (selfPid n : Nat) (fds pid : String)
    (hp : parseU32 pid = some selfPid)
    (hn : parseUsize fds = some n)
    (hone : n ≠ 1) :
    ∃ socks, construct_sockets selfPid fds (some "") pid = .ok socks ∧
      socks.length = n ∧ ∀ s ∈ socks, s.name = none := by
  have hlen : (rustSplit "" ':').length ≠ n := by
    intro h
    exact hone (h ▸ rfl)
  refine ⟨_, construct_sockets_unnamed_of_mismatch selfPid n fds "" pid hp hn hlen,
    ?_, ?_⟩
  · simp [fdRange]
  · intro s hs
    simp only [List.mem_map] at hs
    obtain ⟨fd, _, rfl⟩ := hs
    rfl

/-- Witness for the amended C4 at `n = 2`. -/
theorem construct_sockets_empty_names_spec_witness :
    ∃ socks, construct_sockets 4 "2" (some "") "4" = .ok socks ∧
      socks.length = 2 ∧ ∀ s ∈ socks, s.name = none :=
  construct_sockets_empty_names_spec 4 2 "2" "4" rfl rfl (by decide)

/-! ### Decimal rendering lemmas -/

theorem ofDigits10_natDigitsAux : ∀ (fuel n : Nat), n ≤ fuel →
    ofDigits10 (natDigitsAux fuel n) = n := by
  intro fuel
  induction fuel with
  | zero =>
    intro n h
    have hn : n = 0 := by omega
    subst hn
    rfl
  | succ fuel ih =>
    intro n h
    by_cases hn : n = 0
    · subst hn; rfl
    · have hdiv : n / 10 ≤ fuel := by
        have := Nat.div_lt_self (Nat.pos_of_ne_zero hn) (by norm_num : 1 < 10)
        omega
      simp only [natDigitsAux, if_neg hn, ofDigits10]
      rw [ih (n / 10) hdiv]
      omega

theorem ofDigits10_natDigits (n : Nat) : ofDigits10 (natDigits n) = n :=
  ofDigits10_natDigitsAux n n le_rfl

theorem natDigitsAux_lt : ∀ (fuel n : Nat), ∀ d ∈ natDigitsAux fuel n, d < 10 := by
  intro fuel
  induction fuel with
  | zero => intro n d h; simp [natDigitsAux] at h
  | succ fuel ih =>
    intro n d h
    by_cases hn : n = 0
    · simp [natDigitsAux, hn] at h
    · simp only [natDigitsAux, if_neg hn, List.mem_cons] at h
      rcases h with h | h
      · omega
      · exact ih _ _ h

theorem digit_char_toNat : ∀ d, d < 10 → (Char.ofNat (48 + d)).toNat = 48 + d := by
  decide

theorem natDecimalChars_digits (n : Nat) :
    ∀ c ∈ natDecimalChars n, 48 ≤ c.toNat ∧ c.toNat ≤ 57 := by
  intro c hc
  by_cases hn : n = 0
  · simp only [natDecimalChars, if_pos hn, List.mem_singleton] at hc
    subst hc
    decide
  · simp only [natDecimalChars, if_neg hn, List.mem_map, List.mem_reverse] at hc
    obtain ⟨d, hd, rfl⟩ := hc
    have hlt : d < 10 := natDigitsAux_lt n n d hd
    rw [digit_char_toNat d hlt]
    omega

theorem natDecimalChars_ne_nil (n : Nat) : natDecimalChars n ≠ [] := by
  by_cases hn : n = 0
  · simp [natDecimalChars, hn]
  · obtain ⟨m, rfl⟩ := Nat.exists_eq_succ_of_ne_zero hn
    simp [natDecimalChars, natDigits, natDigitsAux]

theorem decodeDecimal_natDecimalChars (n : Nat) :
    decodeDecimal (natDecimalChars n) = n := by
  by_cases hn : n = 0
  · subst hn; rfl
  · simp only [natDecimalChars, if_neg hn, decodeDecimal]
    simp only [List.map_reverse, List.reverse_reverse, List.map_map]
    have hmap : (natDigits n).map ((fun c => c.toNat - 48) ∘ (fun d => Char.ofNat (48 + d))) =
        (natDigits n).map id := by
      apply List.map_congr_left
      intro d hd
      have hlt : d < 10 := natDigitsAux_lt n n d hd
      simp [Function.comp, digit_char_toNat d hlt]
    rw [hmap, List.map_id, ofDigits10_natDigits]

theorem natDecimalChars_inj {m n : Nat}
    (h : natDecimalChars m = natDecimalChars n) : m = n := by
  have := congrArg decodeDecimal h
  rwa [decodeDecimal_natDecimalChars, decodeDecimal_natDecimalChars] at this

theorem intDecimalChars_inj {e₁ e₂ : Int}
    (h : intDecimalChars e₁ = intDecimalChars e₂) : e₁ = e₂ := by
  have h45 : ('-').toNat = 45 := rfl
  by_cases h₁ : e₁ < 0 <;> by_cases h₂ : e₂ < 0
  · simp only [intDecimalChars, if_pos h₁, if_pos h₂, List.cons.injEq, true_and] at h
    have := natDecimalChars_inj h
    omega
  · simp only [intDecimalChars, if_pos h₁, if_neg h₂] at h
    have hm : '-' ∈ natDecimalChars e₂.toNat := h ▸ List.mem_cons_self '-' _
    have := natDecimalChars_digits e₂.toNat '-' hm
    rw [h45] at this
    omega
  · simp only [intDecimalChars, if_neg h₁, if_pos h₂] at h
    have hm : '-' ∈ natDecimalChars e₁.toNat := h ▸ List.mem_cons_self '-' _
    have := natDecimalChars_digits e₁.toNat '-' hm
    rw [h45] at this
    omega
  · simp only [intDecimalChars, if_neg h₁, if_neg h₂] at h
    have := natDecimalChars_inj h
    omega

theorem decInt_intDecimalChars (e : Int) : decInt (intDecimalChars e) = some e := by
  by_cases he : e < 0
  · have ht : (((-e).toNat : Int)) = -e := Int.toNat_of_nonneg (by omega)
    simp only [intDecimalChars, if_pos he, decInt, List.head?_cons,
      List.drop_succ_cons, List.drop_zero, decodeDecimal_natDecimalChars]
    simp [ht]
  · have hne := natDecimalChars_ne_nil e.toNat
    obtain ⟨c, rest, hcr⟩ : ∃ c rest, natDecimalChars e.toNat = c :: rest := by
      cases hh : natDecimalChars e.toNat with
      | nil => exact absurd hh hne
      | cons c rest => exact ⟨c, rest, rfl⟩
    have hdig := natDecimalChars_digits e.toNat c (by rw [hcr]; exact List.mem_cons_self c rest)
    have hcne : ¬ ((c :: rest).head? = some '-') := by
      simp only [List.head?_cons, Option.some.injEq]
      intro hcc
      subst hcc
      revert hdig
      decide
    simp only [intDecimalChars, if_neg he, hcr, decInt, if_neg hcne]
    rw [← hcr, decodeDecimal_natDecimalChars, Int.toNat_of_nonneg (by omega)]

/-! ### C5 -/

theorem message_foldl_join : ∀ (l : List Notification) (acc : List Char),
    l.foldl (fun acc v => acc ++ v.lineChars ++ ['\n']) acc =
      acc ++ (l.map (fun v => v.lineChars ++ ['\n'])).flatten := by
  intro l
  induction l with
  | nil => intro acc; simp
  | cons v t ih =>
    intro acc
    rw [List.foldl_cons, ih]
    simp [List.append_assoc]

/-- C5: rendering a `Message` is pure and order-preserving: each
notification contributes exactly its `KEY=VALUE` line followed by a line
break, in insertion order, per the fixed mapping; rendering twice yields
identical text; the empty message renders to the empty string; and the
spec's two examples hold. -/
theorem message_render_spec :
    (∀ m : Message, m.render = ⟨(m.vars.map (fun v => v.lineChars ++ ['\n'])).flatten⟩) ∧
    (∀ m : Message, m.render = m.render) ∧
    Message.render ⟨[]⟩ = "" ∧
    Message.render ⟨[.Ready]⟩ = "READY=1\n" ∧
    Message.render ⟨[.Status "hello", .Errno 2]⟩ = "STATUS=hello\nERRNO=2\n" ∧
    Notification.render .Ready = "READY=1" ∧
    Notification.render .Reloading = "RELOADING=1" ∧
    Notification.render .Stopping = "STOPPING=1" ∧
    (∀ s, Notification.render (.Status s) = "STATUS=" ++ s) ∧
    (∀ e, Notification.render (.Errno e) = "ERRNO=" ++ intDecimal e) ∧
    Notification.render .WatchdogOk = "WATCHDOG=1" ∧
    Notification.render .WatchdogTrigger = "WATCHDOG=trigger" ∧
    (∀ k v, Notification.render (.Custom ⟨k, v⟩) = "X-" ++ k ++ "=" ++ v) := by
  refine ⟨?_, fun m => rfl, rfl, rfl, rfl, rfl, rfl, rfl, ?_, fun e => rfl, rfl, rfl, ?_⟩
  · intro m
    simp only [Message.render, message_foldl_join, List.nil_append]
  · intro s
    cases s
    rfl
  · intro k v
    cases k
    cases v
    rfl

/-! ### C6 -/

theorem specDecodeLine_lineChars :
    ∀ a : Notification, a.isCustom = false → specDecodeLine a.lineChars = some a := by
  intro a ha
  cases a with
  | Ready => rfl
  | Reloading => rfl
  | Stopping => rfl
  | Status s => rfl
  | WatchdogOk => rfl
  | WatchdogTrigger => rfl
  | Errno e =>
    show (decInt (intDecimalChars e)).map Notification.Errno = some (.Errno e)
    rw [decInt_intDecimalChars]
    rfl
  | Custom p => simp [Notification.isCustom] at ha

/-- C6: the wire encoding is injective on the non-custom notification
variants — the spec-side decoder keyed on the recognized `KEY=VALUE` forms
recovers every non-custom variant from its encoded line, and consequently
equal encoded lines imply equal variants. -/
theorem notification_encoding_injective :
    (∀ a : Notification, a.isCustom = false → specDecodeLine a.lineChars = some a) ∧
    (∀ a b : Notification, a.isCustom = false → b.isCustom = false →
      a.render = b.render → a = b) := by
  refine ⟨specDecodeLine_lineChars, ?_⟩
  intro a b ha hb h
  have hd : a.lineChars = b.lineChars := congrArg String.data h
  have h3 : specDecodeLine a.lineChars = some b := by
    rw [hd]
    exact specDecodeLine_lineChars b hb
  exact Option.some.inj ((specDecodeLine_lineChars a ha).symm.trans h3)

/-- Witness for C6: decoding the encoding of `Errno (-7)` recovers it. -/
theorem notification_encoding_injective_witness :
    specDecodeLine (Notification.lineChars (.Errno (-7))) = some (.Errno (-7)) :=
  notification_encoding_injective.1 (.Errno (-7)) rfl

/-! ### C8 -/

/-- C8: the environment read fails with `MissingVar name` exactly when the
variable is absent or its value is not valid unicode (the two cases are
indistinguishable in the result), any present valid value is returned
unchanged, and no other error kind is ever produced. -/
theorem var_missing_spec :
    ∀ (env : Env) (name : String),
      (var env name = .error (.MissingVar name) ↔
        env name = none ∨ env name = some .nonUnicode) ∧
      (∀ s, env name = some (.text s) → var env name = .ok s) ∧
      (∀ e, var env name = .error e → e = .MissingVar name) := by
  intro env name
  refine ⟨?_, ?_, ?_⟩
  · cases h : env name with
    | none => simp [var, h]
    | some v => cases v <;> simp [var, h]
  · intro s h
    simp [var, h]
  · intro e h
    cases hv : env name with
    | none => simp [var, hv] at h; exact h.symm
    | some v =>
      cases v with
      | text s => simp [var, hv] at h
      | nonUnicode => simp [var, hv] at h; exact h.symm

/-- Witness for C8: a present, valid value is returned unchanged, and a
non-unicode value yields exactly `MissingVar`. -/
theorem var_missing_spec_witness :
    var (fun _ => some (.text "sock")) "NOTIFY_SOCKET" = .ok "sock" ∧
      (var (fun _ => some .nonUnicode) "LISTEN_PID" =
          .error (.MissingVar "LISTEN_PID") ↔
        (fun _ => some EnvValue.nonUnicode) "LISTEN_PID" = none ∨
        (fun _ => some EnvValue.nonUnicode) "LISTEN_PID" = some .nonUnicode) :=
  ⟨(var_missing_spec (fun _ => some (.text "sock")) "NOTIFY_SOCKET").2.1 "sock" rfl,
    (var_missing_spec (fun _ => some .nonUnicode) "LISTEN_PID").1⟩

/-! ### C10 -/

/-- C10: the `SocketError → NotifyError` conversion maps the `IO`,
`MissingVar` and `InvalidVar` variants to their counterparts and panics
(`none`) on exactly `WrongPID` and `NotSocket`; the environment read can
only fail with `MissingVar`, so the conversion never panics on the errors
the notify paths feed it, and `from_environment` never panics. -/
theorem notify_conversion_spec :
    (∀ e, notifyErrorFromSocketError (.IOError e) = some (.IOError e)) ∧
    (∀ v, notifyErrorFromSocketError (.MissingVar v) = some (.MissingVar v)) ∧
    (∀ v r, notifyErrorFromSocketError (.InvalidVar v r) = some (.InvalidVar v r)) ∧
    (∀ p r, notifyErrorFromSocketError (.WrongPID p r) = none) ∧
    (∀ fd, notifyErrorFromSocketError (.NotSocket fd) = none) ∧
    (∀ (env : Env) (name : String) e, var env name = .error e →
      (notifyErrorFromSocketError e).isSome = true) ∧
    (∀ (env : Env) (unbound : Except IoCause Unit),
      (from_environment env unbound).isSome = true) := by
  refine ⟨fun e => rfl, fun v => rfl, fun v r => rfl, fun p r => rfl, fun fd => rfl,
    ?_, ?_⟩
  · intro env name e h
    have := (var_missing_spec env name).2.2 e h
    subst this
    rfl
  · intro env unbound
    cases hv : env "NOTIFY_SOCKET" with
    | none => simp [from_environment, var, hv, notifyErrorFromSocketError]
    | some v =>
      cases v with
      | text s => cases unbound <;> simp [from_environment, var, hv]
      | nonUnicode => simp [from_environment, var, hv, notifyErrorFromSocketError]

/-- Witness for C10: a missing `NOTIFY_SOCKET` flows through the conversion
without panicking. -/
theorem notify_conversion_spec_witness :
    (notifyErrorFromSocketError (.MissingVar "NOTIFY_SOCKET")).isSome = true :=
  notify_conversion_spec.2.2.2.2.2.1 (fun _ => none) "NOTIFY_SOCKET"
    (.MissingVar "NOTIFY_SOCKET") rfl

/-! ### Helper lemmas about property parsing -/

theorem mem_dropWhile_of_neg {p : Char → Bool} {c : Char} (hc : p c = false) :
    ∀ l : List Char, c ∈ l.dropWhile p ↔ c ∈ l := by
  intro l
  induction l with
  | nil => simp
  | cons x xs ih =>
    by_cases hx : p x
    · have hne : c ≠ x := by
        intro h
        subst h
        rw [hx] at hc
        exact Bool.noConfusion hc
      rw [List.dropWhile_cons_of_pos hx, ih]
      simp [List.mem_cons, hne]
    · rw [List.dropWhile_cons_of_neg (by simpa using hx)]

theorem mem_trimChars {c : Char} (hc : rustIsWhitespace c = false)
    (l : List Char) : c ∈ trimChars l ↔ c ∈ l := by
  unfold trimChars
  rw [List.mem_reverse, mem_dropWhile_of_neg hc, List.mem_reverse,
    mem_dropWhile_of_neg hc]

theorem splitOnceChar_eq_none_iff (c : Char) : ∀ l : List Char,
    splitOnceChar c l = none ↔ c ∉ l := by
  intro l
  induction l with
  | nil => simp [splitOnceChar]
  | cons x xs ih =>
    by_cases hx : x = c
    · subst hx
      simp [splitOnceChar]
    · have hcx : ¬(c = x) := fun h => hx h.symm
      simp [splitOnceChar, hx, ih, hcx]

theorem splitOnce_trim_eq_none_iff (line : String) :
    splitOnce (rustTrim line) '=' = none ↔ '=' ∉ line.data := by
  have h1 : splitOnce (rustTrim line) '=' = none ↔ '=' ∉ (rustTrim line).data := by
    simp [splitOnce, splitOnceChar_eq_none_iff]
  rw [h1]
  exact not_congr (mem_trimChars (by decide) line.data)

theorem parseLines_error_of_find : ∀ (ls : List String) (m : PropMap) (line : String),
    ls.find? (fun l => (splitOnce (rustTrim l) '=').isNone) = some line →
    parseLines ls m = .error (.MissingDelimeter line) := by
  intro ls
  induction ls with
  | nil => intro m line h; simp at h
  | cons l rest ih =>
    intro m line h
    by_cases hl : (splitOnce (rustTrim l) '=').isNone
    · rw [@List.find?_cons_of_pos String
        (fun l => (splitOnce (rustTrim l) '=').isNone) l rest hl] at h
      have hnone : splitOnce (rustTrim l) '=' = none :=
        Option.isNone_iff_eq_none.mp hl
      have hline : l = line := by injection h
      subst hline
      simp [parseLines, hnone]
    · rw [@List.find?_cons_of_neg String
        (fun l => (splitOnce (rustTrim l) '=').isNone) l rest hl] at h
      cases hs : splitOnce (rustTrim l) '=' with
      | none => rw [hs] at hl; simp at hl
      | some kv =>
        obtain ⟨key, value⟩ := kv
        simp only [parseLines, hs]
        exact ih _ line h

theorem parseLines_ok_of_delims : ∀ (ls : List String) (m : PropMap),
    (∀ l ∈ ls, (splitOnce (rustTrim l) '=').isSome) →
    ∃ m', parseLines ls m = .ok m' := by
  intro ls
  induction ls with
  | nil => intro m _; exact ⟨m, rfl⟩
  | cons l rest ih =>
    intro m hall
    have hl := hall l (List.mem_cons_self l rest)
    cases hs : splitOnce (rustTrim l) '=' with
    | none => rw [hs] at hl; simp at hl
    | some kv =>
      obtain ⟨key, value⟩ := kv
      simp only [parseLines, hs]
      exact ih _ (fun x hx => hall x (List.mem_cons_of_mem _ hx))

theorem parseLines_ok_lookup : ∀ (ls : List String) (m m' : PropMap),
    parseLines ls m = .ok m' →
    ∀ k, m' k = (lookupLines ls k).orElse (fun _ => m k) := by
  intro ls
  induction ls with
  | nil =>
    intro m m' h k
    cases h
    rfl
  | cons l rest ih =>
    intro m m' h k
    cases hs : splitOnce (rustTrim l) '=' with
    | none =>
      simp only [parseLines, hs] at h
      exact Except.noConfusion h
    | some kv =>
      obtain ⟨key, value⟩ := kv
      simp only [parseLines, hs] at h
      have hm := ih _ _ h k
      simp only [lookupLines, hs]
      cases hl : lookupLines rest k with
      | some v =>
        rw [hl] at hm
        exact hm
      | none =>
        rw [hl] at hm
        have hm2 : m' k = (m.insert key value) k := hm.trans rfl
        by_cases hk : k = key
        · subst hk
          rw [hm2]
          simp [PropMap.insert, Option.orElse]
        · rw [hm2]
          simp [PropMap.insert, hk, Option.orElse]

theorem lookupLines_eq_none : ∀ (ls : List String) (k : String),
    (∀ l ∈ ls, (splitOnce (rustTrim l) '=').map Prod.fst ≠ some k) →
    lookupLines ls k = none := by
  intro ls
  induction ls with
  | nil => intro k _; rfl
  | cons l rest ih =>
    intro k h
    have hrest := ih k (fun x hx => h x (List.mem_cons_of_mem _ hx))
    simp only [lookupLines, hrest]
    cases hs : splitOnce (rustTrim l) '=' with
    | none => rfl
    | some kv =>
      obtain ⟨key, value⟩ := kv
      have hmap := h l (List.mem_cons_self l rest)
      rw [hs] at hmap
      have hne : ¬(k = key) := by
        intro hh
        exact hmap (by simp [hh])
      exact if_neg hne

theorem fromStr_ok_lookup (s : String) (p : SystemDProperties)
    (h : SystemDProperties.fromStr s = .ok p) :
    ∀ k, p.property k = lookupLines (rustLines s) k := by
  unfold SystemDProperties.fromStr at h
  split at h
  · exact Except.noConfusion h
  · rename_i m hp
    split at h
    · exact Except.noConfusion h
    · rename_i v ha
      split at h
      · exact Except.noConfusion h
      · rename_i st hv
        cases h
        intro k
        have hm := parseLines_ok_lookup _ _ _ hp k
        show m k = _
        rw [hm]
        cases lookupLines (rustLines s) k <;> rfl

/-! ### C7 -/

/-- C7: unit-property parsing — the spec's example input parses with state
`Active` and `MainPID = "123"`; a line without `=` (the first one) makes
parsing fail with `MissingDelimeter` carrying that line; inputs whose
lines all parse but carry no `ActiveState` key fail with
`MissingProperty "ActiveState"`; duplicate keys keep the last occurrence
(`lookupLines` prefers later lines); and `ActiveState` must be exactly one
of the six recognized words, otherwise the state-parse error results. -/
theorem properties_parse_spec :
    (∃ p, SystemDProperties.fromStr "ActiveState=active\nMainPID=123\n" = .ok p ∧
      p.state = .Active ∧ p.property "MainPID" = some "123") ∧
    (∀ line : String, splitOnce (rustTrim line) '=' = none ↔ '=' ∉ line.data) ∧
    (∀ s line,
      (rustLines s).find? (fun l => (splitOnce (rustTrim l) '=').isNone) = some line →
      SystemDProperties.fromStr s = .error (.MissingDelimeter line)) ∧
    (∀ s, (∀ l ∈ rustLines s, (splitOnce (rustTrim l) '=').isSome) →
      (∀ l ∈ rustLines s, (splitOnce (rustTrim l) '=').map Prod.fst ≠ some "ActiveState") →
      SystemDProperties.fromStr s = .error (.MissingProperty "ActiveState")) ∧
    (∀ s p, SystemDProperties.fromStr s = .ok p →
      ∀ k, p.property k = lookupLines (rustLines s) k) ∧
    (∃ p, SystemDProperties.fromStr "ActiveState=active\nDup=1\nDup=2\n" = .ok p ∧
      p.property "Dup" = some "2") ∧
    (ActiveState.fromStr "active" = .ok .Active ∧
      ActiveState.fromStr "reloading" = .ok .Reloading ∧
      ActiveState.fromStr "inactive" = .ok .Inactive ∧
      ActiveState.fromStr "failed" = .ok .Failed ∧
      ActiveState.fromStr "activating" = .ok .Activating ∧
      ActiveState.fromStr "deactivating" = .ok .Deactivating) ∧
    (∀ v, v ∉ (["active", "reloading", "inactive", "failed", "activating",
        "deactivating"] : List String) → ActiveState.fromStr v = .error ⟨v⟩) ∧
    (∀ s v, (∀ l ∈ rustLines s, (splitOnce (rustTrim l) '=').isSome) →
      lookupLines (rustLines s) "ActiveState" = some v →
      ActiveState.fromStr v = .error ⟨v⟩ →
      SystemDProperties.fromStr s = .error (.State ⟨v⟩)) := by
  refine ⟨⟨_, rfl, rfl, rfl⟩, splitOnce_trim_eq_none_iff, ?_, ?_, fromStr_ok_lookup,
    ⟨_, rfl, rfl⟩, ⟨rfl, rfl, rfl, rfl, rfl, rfl⟩, ?_, ?_⟩
  · intro s line h
    simp [SystemDProperties.fromStr, parseLines_error_of_find _ _ _ h]
  · intro s hdelims hkeys
    obtain ⟨m', hm'⟩ := parseLines_ok_of_delims _ (fun _ => none) hdelims
    have hlk := parseLines_ok_lookup _ _ _ hm' "ActiveState"
    rw [lookupLines_eq_none _ "ActiveState" hkeys] at hlk
    have hnone : m' "ActiveState" = none := hlk.trans rfl
    simp [SystemDProperties.fromStr, hm', hnone]
  · intro v hv
    rw [ActiveState.fromStr.eq_def]
    split <;> simp_all
  · intro s v hdelims hlook hbad
    obtain ⟨m', hm'⟩ := parseLines_ok_of_delims _ (fun _ => none) hdelims
    have hlk := parseLines_ok_lookup _ _ _ hm' "ActiveState"
    rw [hlook] at hlk
    have hsome : m' "ActiveState" = some v := hlk.trans rfl
    simp [SystemDProperties.fromStr, hm', hsome, hbad]

/-- Witness for C7: a single line with no `=` fails with `MissingDelimeter`
carrying that line. -/
theorem properties_parse_spec_witness :
    SystemDProperties.fromStr "NotAProperty" =
      .error (.MissingDelimeter "NotAProperty") :=
  properties_parse_spec.2.2.1 "NotAProperty" "NotAProperty" (by decide)

end Systemdrs
